import Mathlib

/-!
Shallow embedding of the URL-shortener backend (Express app in the repository:
in-memory `urlDatabase` and `clickAnalytics` maps, `generateShortCode`, and the
four route handlers).  Times are integers (milliseconds since epoch, the value
of `Date.now()`); the JS `Map` is an association list with `Map.set` replacing
the binding of an existing key and appending a fresh one; the platform
function `new URL` (URL validation) and the mock locator are opaque parameters,
since they are host/library facilities rather than repository code; `uuidv4`
is an opaque freshly supplied identifier.  `Math.random()` draws are modelled
as an explicit stream of indices into the 62-character alphabet: each
generation attempt consumes one group of six draws.
-/

namespace UrlShortener

/-- The literal alphabet used by the random generator in `generateShortCode`
(62 characters: lower-case, upper-case, digits). -/
def charsList : List Char :=
  "abcdefghijklmnopqrstuvwxyzABCDEFGHIJKLMNOPQRSTUVWXYZ0123456789".toList

/-- One character drawn by `chars.charAt(Math.floor(Math.random() * chars.length))`:
the index is in `[0, 62)` and selects from `charsList`. -/
def drawChar (i : Fin 62) : Char :=
  charsList.getD i.val 'a'

/-- A character of the random-generation alphabet: `[a-zA-Z0-9]`. -/
def isAlnumChar (c : Char) : Bool :=
  ( 'a' ≤ c && c ≤ 'z') || ( 'A' ≤ c && c ≤ 'Z') || ( '0' ≤ c && c ≤ '9')

/-- A character allowed by the custom-shortcode regular expression
`[a-zA-Z0-9_-]`. -/
def validCodeChar (c : Char) : Bool :=
  isAlnumChar c || c == '-' || c == '_'

/-- The test `/^[a-zA-Z0-9_-]+$/.test(s)`: nonempty and every character in the
class. -/
def matchesCodeRegex (s : String) : Bool :=
  decide (s ≠ "") && s.data.all validCodeChar

/-- Character-class membership as the specification words it: every character
of the string is alphanumeric, a hyphen or an underscore. -/
def inCodeClass (s : String) : Bool :=
  s.data.all validCodeChar

/-- Every character of the string belongs to the 62-character generation
alphabet class (no hyphen, no underscore). -/
def inAlnumClass (s : String) : Bool :=
  s.data.all isAlnumChar

/-- The six random draws of one generation attempt
(`for (let i = 0; i < 6; i++) result += chars.charAt(...)`). -/
structure Draw6 where
  d0 : Fin 62
  d1 : Fin 62
  d2 : Fin 62
  d3 : Fin 62
  d4 : Fin 62
  d5 : Fin 62
deriving DecidableEq, Repr

/-- The candidate code built by one generation attempt. -/
def drawnCode (d : Draw6) : String :=
  String.mk [drawChar d.d0, drawChar d.d1, drawChar d.d2,
             drawChar d.d3, drawChar d.d4, drawChar d.d5]

/-- The random branch of `generateShortCode`: build a 6-character candidate;
if `urlDatabase.has(result)` then recurse (with six fresh draws), else return
it.  `has` is the membership test against the registry; the draw stream is the
explicit list of attempts, and `none` means the modelled stream was exhausted
while the source would keep drawing (the source recursion has no cap). -/
def genRandom (has : String → Bool) : List Draw6 → Option String
  | [] => none
  | d :: rest =>
    if has (drawnCode d) then genRandom has rest else some (drawnCode d)

/-- Failures thrown by `generateShortCode`, plus `outOfDraws`, a model
artifact marking exhaustion of the modelled draw stream (the source never
throws in the random branch; it keeps recursing). -/
inductive CodeError where
  | invalidFormat
  | invalidLength
  | collision
  | outOfDraws
deriving DecidableEq, Repr

/-- `generateShortCode(customCode)` from the source.  The JS guard
`if (customCode)` is string truthiness: the custom branch runs exactly when a
nonempty string was supplied. -/
def generateShortCode (has : String → Bool) (customCode : Option String)
    (ds : List Draw6) : Except CodeError String :=
  if customCode.getD "" = "" then
    match genRandom has ds with
    | some code => .ok code
    | none => .error .outOfDraws
  else
    let c := customCode.getD ""
    if matchesCodeRegex c = false then .error .invalidFormat
    else if c.length < 3 ∨ 20 < c.length then .error .invalidLength
    else if has c then .error .collision
    else .ok c

/-- The value stored in `urlDatabase` (the object literal built by the
`POST /api/shorten` handler).  `id` models the opaque `uuidv4()` string;
`validityPeriod` keeps the source field name (minutes). -/
structure URLRecord where
  id : Nat
  originalUrl : String
  shortCode : String
  createdAt : Int
  expiryDate : Int
  createdBy : String
  isActive : Bool
  validityPeriod : Int
deriving DecidableEq, Repr

/-- One element of `analytics.clicks` (the object pushed by the redirect
handler). -/
structure ClickRecord where
  timestamp : Int
  ip : String
  userAgent : String
  location : String
deriving DecidableEq, Repr

/-- The value stored in `clickAnalytics`. -/
structure AnalyticsEntry where
  totalClicks : Nat
  clicks : List ClickRecord
deriving DecidableEq, Repr

/-- `Map.prototype.get`, on the association-list model of a JS `Map`. -/
def lookupKey (k : String) : List (String × α) → Option α
  | [] => none
  | (k0, v0) :: rest => if k0 = k then some v0 else lookupKey k rest

/-- `Map.prototype.set`: replace the binding of an existing key in place,
append a fresh key at the end (insertion order is preserved). -/
def mapSet : List (String × α) → String → α → List (String × α)
  | [], k, v => [(k, v)]
  | (k0, v0) :: rest, k, v =>
    if k0 = k then (k, v) :: rest else (k0, v0) :: mapSet rest k v

/-- The keys of a map, in insertion order. -/
def keysOf (m : List (String × α)) : List String :=
  m.map Prod.fst

/-- The two module-level maps of the server. -/
structure ServerState where
  urlDatabase : List (String × URLRecord)
  clickAnalytics : List (String × AnalyticsEntry)
deriving DecidableEq, Repr

/-- The state at server start: both maps empty. -/
def emptyState : ServerState :=
  { urlDatabase := [], clickAnalytics := [] }

/-- The quota filter of the `POST /api/shorten` handler:
`Array.from(urlDatabase.values()).filter(url => url.createdBy === clientIP
&& new Date() <= url.expiryDate).length`. -/
def countActiveForCreator (s : ServerState) (creator : String) (now : Int) : Nat :=
  ((s.urlDatabase.map Prod.snd).filter
    (fun r => r.createdBy == creator && decide (now ≤ r.expiryDate))).length

/-- The expiry test of the redirect handler: `new Date() > urlData.expiryDate`. -/
def isExpired (r : URLRecord) (now : Int) : Bool :=
  decide (r.expiryDate < now)

/-- The failure responses of the `POST /api/shorten` handler.  `outOfDraws`
from the generator is propagated as `codeGen CodeError.outOfDraws`. -/
inductive CreateError where
  | missingUrl
  | invalidUrl
  | quotaExceeded
  | codeGen (e : CodeError)
deriving DecidableEq, Repr

/-- The `POST /api/shorten` handler.  `validUrl` is the opaque host facility
`isValidUrl` (built on `new URL`); `newId` models `uuidv4()`; `now` is the
single instant of the request (the handler reads the clock for the quota
filter, the expiry computation and `createdAt`).  Failure paths return the
state unchanged (in the source they `return` before any mutation). -/
def createShortUrl (validUrl : String → Bool) (s : ServerState)
    (originalUrl customShortcode : Option String) (validityPeriod : Option Int)
    (clientIP : String) (now : Int) (newId : Nat) (ds : List Draw6) :
    ServerState × Except CreateError URLRecord :=
  if originalUrl.getD "" = "" then (s, .error .missingUrl)
  else if validUrl (originalUrl.getD "") = false then (s, .error .invalidUrl)
  else if 5 ≤ countActiveForCreator s clientIP now then (s, .error .quotaExceeded)
  else
    match generateShortCode (fun c => (lookupKey c s.urlDatabase).isSome)
        customShortcode ds with
    | .error e => (s, .error (.codeGen e))
    | .ok shortCode =>
      let validityMinutes : Int :=
        if validityPeriod.getD 0 = 0 then 30 else validityPeriod.getD 0
      let r : URLRecord :=
        { id := newId
          originalUrl := originalUrl.getD ""
          shortCode := shortCode
          createdAt := now
          expiryDate := now + validityMinutes * 60 * 1000
          createdBy := clientIP
          isActive := true
          validityPeriod := validityMinutes }
      ({ urlDatabase := mapSet s.urlDatabase shortCode r
         clickAnalytics := mapSet s.clickAnalytics shortCode
           { totalClicks := 0, clicks := [] } },
       .ok r)

/-- The failure responses of the `GET /:shortCode` redirect handler.
`internalError` is the catch-all 500 path, reached when the analytics entry
for a registered code is missing (`analytics.totalClicks++` on `undefined`
throws, and the surrounding try/catch answers 500 without mutating state). -/
inductive ResolveError where
  | notFound
  | expired (expiredAt : Int)
  | internalError
deriving DecidableEq, Repr

/-- The `GET /:shortCode` redirect handler.  `locate` is the opaque
`getCoarseLocation` collaborator.  On success the click is appended and the
counter incremented, and the original URL is returned for the redirect. -/
def resolveAndRecordClick (locate : String → String) (s : ServerState)
    (shortCode clientIP userAgent : String) (now : Int) :
    ServerState × Except ResolveError String :=
  match lookupKey shortCode s.urlDatabase with
  | none => (s, .error .notFound)
  | some urlData =>
    if isExpired urlData now then (s, .error (.expired urlData.expiryDate))
    else
      match lookupKey shortCode s.clickAnalytics with
      | none => (s, .error .internalError)
      | some analytics =>
        let click : ClickRecord :=
          { timestamp := now
            ip := clientIP
            userAgent := userAgent
            location := locate clientIP }
        ({ s with
            clickAnalytics := mapSet s.clickAnalytics shortCode
              { totalClicks := analytics.totalClicks + 1
                clicks := analytics.clicks ++ [click] } },
         .ok urlData.originalUrl)

/-- A state-changing request.  The read-only endpoints (`GET /api/urls`,
`GET /api/analytics/:shortCode`, `GET /api/health`) never write to either map,
so traces of these two operations reach every reachable state. -/
inductive Op where
  | create (validUrl : String → Bool) (originalUrl customShortcode : Option String)
      (validityPeriod : Option Int) (clientIP : String) (newId : Nat)
      (ds : List Draw6)
  | resolve (locate : String → String) (shortCode clientIP userAgent : String)

/-- The state after serving one request at instant `now`. -/
def applyOp (s : ServerState) (now : Int) : Op → ServerState
  | .create validUrl originalUrl customShortcode validityPeriod clientIP newId ds =>
    (createShortUrl validUrl s originalUrl customShortcode validityPeriod
      clientIP now newId ds).1
  | .resolve locate shortCode clientIP userAgent =>
    (resolveAndRecordClick locate s shortCode clientIP userAgent now).1

/-- The state after serving a time-stamped sequence of requests. -/
def runTrace (s : ServerState) : List (Int × Op) → ServerState
  | [] => s
  | (t, op) :: evs => runTrace (applyOp s t op) evs

/-- The request instants of a trace are at or after `t` and nondecreasing
(the wall clock never runs backwards). -/
def monoFrom (t : Int) : List (Int × Op) → Prop
  | [] => True
  | (t0, _) :: evs => t ≤ t0 ∧ monoFrom t0 evs

/-- The instant of the last request of a trace (or `t` for the empty trace). -/
def endTime (t : Int) : List (Int × Op) → Int
  | [] => t
  | (t0, _) :: evs => endTime t0 evs

/-- The analytics-consistency invariant of the specification: every entry of
`clickAnalytics` has its counter equal to the length of its click sequence. -/
def analyticsConsistent (s : ServerState) : Prop :=
  ∀ code a, lookupKey code s.clickAnalytics = some a →
    a.totalClicks = a.clicks.length

/-- The key-alignment invariant of the specification: `urlDatabase` and
`clickAnalytics` hold entries for exactly the same short codes (even in the
same insertion order). -/
def keysAligned (s : ServerState) : Prop :=
  keysOf s.urlDatabase = keysOf s.clickAnalytics

/-- A fresh analytics entry, as inserted by the create handler. -/
def entry0 : AnalyticsEntry := { totalClicks := 0, clicks := [] }

/-- A concrete record used to exercise the theorems: created at instant 0
with a validity of 5 minutes, so its expiry instant is 300000. -/
def sampleRecord : URLRecord :=
  { id := 1
    originalUrl := "https://example.com"
    shortCode := "abc"
    createdAt := 0
    expiryDate := 300000
    createdBy := "ip"
    isActive := true
    validityPeriod := 5 }

/-- A concrete server state holding one record under the code "abc". -/
def oneState : ServerState :=
  { urlDatabase := [("abc", sampleRecord)]
    clickAnalytics := [("abc", entry0)] }

/-- The record produced by a concrete successful create call: instant 0,
validity 5 minutes, generated code "abcdef" from the draw stream
[⟨0, 1, 2, 3, 4, 5⟩]. -/
def sampleCreated : URLRecord :=
  { id := 1
    originalUrl := "https://example.com"
    shortCode := "abcdef"
    createdAt := 0
    expiryDate := 300000
    createdBy := "ip"
    isActive := true
    validityPeriod := 5 }

/-- A concrete record for the quota scenario, parameterised by its code. -/
def quotaRecord (code : String) : URLRecord :=
  { id := 2
    originalUrl := "https://example.com"
    shortCode := code
    createdAt := 0
    expiryDate := 300000
    createdBy := "ip"
    isActive := true
    validityPeriod := 5 }

/-- A concrete server state in which the creator "ip" already has five
active (unexpired at instant 0) records. -/
def fiveState : ServerState :=
  { urlDatabase := [("c1", quotaRecord "c1"), ("c2", quotaRecord "c2"),
                    ("c3", quotaRecord "c3"), ("c4", quotaRecord "c4"),
                    ("c5", quotaRecord "c5")]
    clickAnalytics := [("c1", entry0), ("c2", entry0), ("c3", entry0),
                       ("c4", entry0), ("c5", entry0)] }

/-! ### Lemmas about the code generator -/

theorem drawChar_isAlnum : ∀ i : Fin 62, isAlnumChar (drawChar i) = true := by
  decide

theorem validCodeChar_of_alnum {c : Char} (h : isAlnumChar c = true) :
    validCodeChar c = true := by
  simp only [validCodeChar, isAlnumChar] at *
  simp [h]

theorem inCodeClass_of_alnum {s : String} (h : inAlnumClass s = true) :
    inCodeClass s = true := by
  simp only [inAlnumClass, inCodeClass, List.all_eq_true] at *
  intro c hc
  exact validCodeChar_of_alnum (h c hc)

theorem drawnCode_length (d : Draw6) : (drawnCode d).length = 6 := rfl

theorem drawnCode_alnum (d : Draw6) : inAlnumClass (drawnCode d) = true := by
  simp [inAlnumClass, drawnCode, String.data, drawChar_isAlnum]

theorem genRandom_sound (has : String → Bool) :
    ∀ (ds : List Draw6) (code : String), genRandom has ds = some code →
      code.length = 6 ∧ inAlnumClass code = true ∧ has code = false := by
  intro ds
  induction ds with
  | nil => intro code h; simp [genRandom] at h
  | cons d rest ih =>
    intro code h
    by_cases hcol : has (drawnCode d) = true
    · simp only [genRandom, hcol, if_true] at h
      exact ih code h
    · rw [Bool.not_eq_true] at hcol
      simp only [genRandom, hcol, Bool.false_eq_true, if_false,
        Option.some.injEq] at h
      subst h
      exact ⟨drawnCode_length d, drawnCode_alnum d, hcol⟩

theorem matchesCodeRegex_of_ne {c : String} (hc : c ≠ "") :
    matchesCodeRegex c = inCodeClass c := by
  simp [matchesCodeRegex, inCodeClass, hc]

/-! ### Claims about the code generator -/

/-- Claim C1: with a (truthy) custom code supplied, `generateShortCode` fails
with the invalid-format error unless every character is alphanumeric, hyphen
or underscore; otherwise fails with the invalid-length error unless the length
is in [3, 20]; otherwise fails with the collision error if the registry
already holds the code; otherwise returns the custom code verbatim. -/
theorem C1_custom_code_validation (has : String → Bool) (c : String)
    (ds : List Draw6) (hc : c ≠ "") :
    (inCodeClass c = false →
      generateShortCode has (some c) ds = .error .invalidFormat) ∧
    (inCodeClass c = true → (c.length < 3 ∨ 20 < c.length) →
      generateShortCode has (some c) ds = .error .invalidLength) ∧
    (inCodeClass c = true → 3 ≤ c.length → c.length ≤ 20 → has c = true →
      generateShortCode has (some c) ds = .error .collision) ∧
    (inCodeClass c = true → 3 ≤ c.length → c.length ≤ 20 → has c = false →
      generateShortCode has (some c) ds = .ok c) := by
  have hm := matchesCodeRegex_of_ne hc
  refine ⟨?_, ?_, ?_, ?_⟩
  · intro h1
    simp [generateShortCode, hc, hm, h1]
  · intro h1 h2
    simp [generateShortCode, hc, hm, h1, h2]
  · intro h1 h2 h3 h4
    have hlen : ¬ (c.length < 3 ∨ 20 < c.length) := by omega
    simp [generateShortCode, hc, hm, h1, hlen, h4]
  · intro h1 h2 h3 h4
    have hlen : ¬ (c.length < 3 ∨ 20 < c.length) := by omega
    simp [generateShortCode, hc, hm, h1, hlen, h4]

theorem C1_witness :
    (inCodeClass "abc!" = false ∧
      generateShortCode (fun _ => false) (some "abc!") [] =
        .error .invalidFormat) ∧
    (inCodeClass "ab" = true ∧
      generateShortCode (fun _ => false) (some "ab") [] =
        .error .invalidLength) ∧
    (generateShortCode (fun s => s == "abc") (some "abc") [] =
      .error .collision) ∧
    (generateShortCode (fun _ => false) (some "my-code_1") [] =
      .ok "my-code_1") := by
  refine ⟨⟨by decide, ?_⟩, ⟨by decide, ?_⟩, ?_, ?_⟩
  · exact (C1_custom_code_validation (fun _ => false) "abc!" [] (by decide)).1
      (by decide)
  · exact (C1_custom_code_validation (fun _ => false) "ab" [] (by decide)).2.1
      (by decide) (Or.inl (by decide))
  · exact (C1_custom_code_validation (fun s => s == "abc") "abc" []
      (by decide)).2.2.1 (by decide) (by decide) (by decide) (by decide)
  · exact (C1_custom_code_validation (fun _ => false) "my-code_1" []
      (by decide)).2.2.2 (by decide) (by decide) (by decide) (by decide)

/-- Claim C6 (counterexample to the character-class part): the hyphen belongs
to the custom-code character class but does not occur in the generation
alphabet, so random codes are not drawn from the same character class. -/
theorem C6_counterexample :
    validCodeChar '-' = true ∧ charsList.contains '-' = false := by
  decide

/-- Claim C6 (amended): random generation draws from the 62-character
alphanumeric alphabet, a strict subset of the custom-code class; every
returned code has length exactly 6, every character alphanumeric (hence in
the custom-code class), and the code is absent from the registry at return. -/
theorem C6_generated_code_spec (has : String → Bool) (ds : List Draw6)
    (code : String) (h : genRandom has ds = some code) :
    code.length = 6 ∧ inAlnumClass code = true ∧ inCodeClass code = true ∧
      has code = false := by
  obtain ⟨h1, h2, h3⟩ := genRandom_sound has ds code h
  exact ⟨h1, h2, inCodeClass_of_alnum h2, h3⟩

theorem C6_witness :
    genRandom (fun _ => false) [⟨0, 1, 2, 3, 4, 5⟩] = some "abcdef" ∧
      ("abcdef".length = 6 ∧ inAlnumClass "abcdef" = true ∧
        inCodeClass "abcdef" = true ∧ (fun _ => false) "abcdef" = false) :=
  ⟨by decide, C6_generated_code_spec (fun _ => false) [⟨0, 1, 2, 3, 4, 5⟩]
    "abcdef" (by decide)⟩

/-- Claim C7 (counterexample to the retry cap): against a registry holding
exactly the code that a constant draw stream keeps producing, 101 collision
attempts (well past the claimed cap of 100) are all consumed with the
generator still retrying; no exhaustion failure is ever produced (the error
type of the translated generator has no such failure). -/
theorem C7_counterexample :
    genRandom (fun s => s == "aaaaaa")
      (List.replicate 101 (⟨0, 0, 0, 0, 0, 0⟩ : Draw6)) = none := by
  decide

/-- Claim C7 (amended): collision retries are unbounded; for every number of
attempts n, a constantly colliding draw stream of n attempts is consumed in
full with the generator still drawing, and no exhaustion error exists in the
generator itself. -/
theorem C7_retry_unbounded (n : Nat) :
    genRandom (fun s => s == "aaaaaa")
      (List.replicate n (⟨0, 0, 0, 0, 0, 0⟩ : Draw6)) = none := by
  induction n with
  | zero => rfl
  | succ k ih =>
    have hd : drawnCode (⟨0, 0, 0, 0, 0, 0⟩ : Draw6) = "aaaaaa" := by decide
    rw [List.replicate_succ]
    simp [genRandom, hd, ih]

/-! ### Lemmas about the map model -/

theorem lookupKey_mapSet (m : List (String × α)) (k0 : String) (v : α)
    (k : String) :
    lookupKey k (mapSet m k0 v) = if k0 = k then some v else lookupKey k m := by
  induction m with
  | nil => simp [mapSet, lookupKey]
  | cons p rest ih =>
    obtain ⟨k1, v1⟩ := p
    simp only [mapSet]
    by_cases h1 : k1 = k0
    · subst h1
      by_cases h2 : k1 = k <;> simp [lookupKey, h2]
    · by_cases h2 : k1 = k
      · subst h2
        have : ¬ k0 = k1 := fun h => h1 h.symm
        simp [lookupKey, this, h1]
      · simp [lookupKey, h1, h2, ih]

theorem mapSet_fresh (m : List (String × α)) (k : String) (v : α)
    (h : lookupKey k m = none) : mapSet m k v = m ++ [(k, v)] := by
  induction m with
  | nil => simp [mapSet]
  | cons p rest ih =>
    obtain ⟨k1, v1⟩ := p
    simp only [lookupKey] at h
    by_cases h1 : k1 = k
    · simp [h1] at h
    · simp [h1] at h
      simp [mapSet, h1, ih h]

theorem keysOf_mapSet_existing (m : List (String × α)) (k : String) (v : α)
    (h : (lookupKey k m).isSome = true) :
    keysOf (mapSet m k v) = keysOf m := by
  induction m with
  | nil => simp [lookupKey] at h
  | cons p rest ih =>
    obtain ⟨k1, v1⟩ := p
    simp only [lookupKey] at h
    by_cases h1 : k1 = k
    · simp [mapSet, h1, keysOf]
    · simp [h1] at h
      simp [mapSet, h1, keysOf] at ih ⊢
      exact ih h

theorem lookupKey_isSome_iff_mem_keys (m : List (String × α)) (k : String) :
    (lookupKey k m).isSome = true ↔ k ∈ keysOf m := by
  induction m with
  | nil => simp [lookupKey, keysOf]
  | cons p rest ih =>
    obtain ⟨k1, v1⟩ := p
    by_cases h1 : k1 = k <;> simp [lookupKey, keysOf, h1, ih]
    exact fun h => absurd h.symm h1

theorem lookupKey_append_left (m m' : List (String × α)) (k : String)
    (v : α) (h : lookupKey k m = some v) :
    lookupKey k (m ++ m') = some v := by
  induction m with
  | nil => simp [lookupKey] at h
  | cons p rest ih =>
    obtain ⟨k1, v1⟩ := p
    simp only [lookupKey] at h ⊢
    by_cases h1 : k1 = k <;> simp_all

/-! ### Lemmas about the quota count -/

theorem countActive_mono (s : ServerState) (c : String) {t t' : Int}
    (h : t ≤ t') :
    countActiveForCreator s c t' ≤ countActiveForCreator s c t := by
  unfold countActiveForCreator
  apply List.Sublist.length_le
  apply List.monotone_filter_right
  intro r hr
  simp only [Bool.and_eq_true, decide_eq_true_eq] at hr ⊢
  exact ⟨hr.1, le_trans h hr.2⟩

theorem countActive_append (db : List (String × URLRecord))
    (an : List (String × AnalyticsEntry)) (k : String) (r : URLRecord)
    (c : String) (now : Int) :
    countActiveForCreator ⟨db ++ [(k, r)], an⟩ c now ≤
      countActiveForCreator ⟨db, an⟩ c now + 1 := by
  simp only [countActiveForCreator, List.map_append, List.filter_append,
    List.length_append]
  have : (List.filter (fun x => x.createdBy == c && decide (now ≤ x.expiryDate))
      (List.map Prod.snd [(k, r)])).length ≤ 1 := by
    simp only [List.map_cons, List.map_nil]
    cases hp : (r.createdBy == c && decide (now ≤ r.expiryDate)) <;>
      simp [List.filter, hp]
  omega

theorem countActive_analytics_irrelevant (db : List (String × URLRecord))
    (an an' : List (String × AnalyticsEntry)) (c : String) (now : Int) :
    countActiveForCreator ⟨db, an'⟩ c now = countActiveForCreator ⟨db, an⟩ c now := by
  rfl

/-! ### Inversion lemmas for the two handlers -/

theorem generateShortCode_ok (has : String → Bool) (customCode : Option String)
    (ds : List Draw6) (code : String)
    (h : generateShortCode has customCode ds = .ok code) : has code = false := by
  unfold generateShortCode at h
  by_cases h0 : customCode.getD "" = ""
  · rw [if_pos h0] at h
    cases hg : genRandom has ds with
    | none => simp [hg] at h
    | some c =>
      simp only [hg, Except.ok.injEq] at h
      cases h
      exact (genRandom_sound has ds _ hg).2.2
  · rw [if_neg h0] at h
    by_cases h1 : matchesCodeRegex (customCode.getD "") = false
    · simp [h1] at h
    · rw [if_neg h1] at h
      by_cases h2 : (customCode.getD "").length < 3 ∨ 20 < (customCode.getD "").length
      · simp [h2] at h
      · rw [if_neg h2] at h
        by_cases h3 : has (customCode.getD "") = true
        · simp [h3] at h
        · rw [if_neg h3] at h
          simp only [Except.ok.injEq] at h
          subst h
          exact Bool.not_eq_true _ |>.mp h3

theorem createShortUrl_cases (validUrl : String → Bool) (s : ServerState)
    (originalUrl customShortcode : Option String) (validityPeriod : Option Int)
    (clientIP : String) (now : Int) (newId : Nat) (ds : List Draw6) :
    (∃ e, createShortUrl validUrl s originalUrl customShortcode validityPeriod
        clientIP now newId ds = (s, .error e)) ∨
    (∃ r, createShortUrl validUrl s originalUrl customShortcode validityPeriod
        clientIP now newId ds =
        ({ urlDatabase := mapSet s.urlDatabase r.shortCode r
           clickAnalytics := mapSet s.clickAnalytics r.shortCode entry0 },
         .ok r) ∧
      countActiveForCreator s clientIP now < 5 ∧
      lookupKey r.shortCode s.urlDatabase = none ∧
      r.createdBy = clientIP ∧ r.createdAt = now ∧
      r.validityPeriod =
        (if validityPeriod.getD 0 = 0 then 30 else validityPeriod.getD 0) ∧
      r.expiryDate = now + r.validityPeriod * 60 * 1000) := by
  unfold createShortUrl
  by_cases h1 : originalUrl.getD "" = ""
  · exact Or.inl ⟨_, by rw [if_pos h1]⟩
  · rw [if_neg h1]
    by_cases h2 : validUrl (originalUrl.getD "") = false
    · exact Or.inl ⟨_, by rw [if_pos h2]⟩
    · rw [if_neg h2]
      by_cases h3 : 5 ≤ countActiveForCreator s clientIP now
      · exact Or.inl ⟨_, by rw [if_pos h3]⟩
      · rw [if_neg h3]
        cases hg : generateShortCode (fun c => (lookupKey c s.urlDatabase).isSome)
            customShortcode ds with
        | error e => exact Or.inl ⟨.codeGen e, rfl⟩
        | ok code =>
          right
          have h5 : (lookupKey code s.urlDatabase).isSome = false :=
            generateShortCode_ok _ _ _ _ hg
          have hfresh : lookupKey code s.urlDatabase = none := by
            cases hl : lookupKey code s.urlDatabase with
            | none => rfl
            | some v => rw [hl] at h5; simp at h5
          refine ⟨{ id := newId
                    originalUrl := originalUrl.getD ""
                    shortCode := code
                    createdAt := now
                    expiryDate := now + (if validityPeriod.getD 0 = 0 then 30
                      else validityPeriod.getD 0) * 60 * 1000
                    createdBy := clientIP
                    isActive := true
                    validityPeriod := if validityPeriod.getD 0 = 0 then 30
                      else validityPeriod.getD 0 },
                  rfl, by omega, hfresh, rfl, rfl, rfl, rfl⟩

theorem resolve_cases (locate : String → String) (s : ServerState)
    (shortCode clientIP userAgent : String) (now : Int) :
    (∃ e, resolveAndRecordClick locate s shortCode clientIP userAgent now =
        (s, .error e)) ∨
    (∃ r a, lookupKey shortCode s.urlDatabase = some r ∧
      isExpired r now = false ∧
      lookupKey shortCode s.clickAnalytics = some a ∧
      resolveAndRecordClick locate s shortCode clientIP userAgent now =
        ({ s with
            clickAnalytics := mapSet s.clickAnalytics shortCode
              ⟨a.totalClicks + 1,
               a.clicks ++ [⟨now, clientIP, userAgent, locate clientIP⟩]⟩ },
         .ok r.originalUrl)) := by
  cases hdb : lookupKey shortCode s.urlDatabase with
  | none => exact Or.inl ⟨.notFound, by simp [resolveAndRecordClick, hdb]⟩
  | some r =>
    by_cases hexp : isExpired r now = true
    · exact Or.inl ⟨.expired r.expiryDate,
        by simp [resolveAndRecordClick, hdb, hexp]⟩
    · rw [Bool.not_eq_true] at hexp
      cases han : lookupKey shortCode s.clickAnalytics with
      | none => exact Or.inl ⟨.internalError,
          by simp [resolveAndRecordClick, hdb, hexp, han]⟩
      | some a =>
        exact Or.inr ⟨r, a, rfl, hexp, rfl,
          by simp [resolveAndRecordClick, hdb, hexp, han]⟩

/-! ### Claims about the create handler -/

/-- Claim C3: a successful create stores the supplied validity when it is a
nonzero value and defaults to 30 minutes when it is unset or zero, and the
expiry instant is the creation instant plus that many minutes. -/
theorem C3_validity_defaulting (validUrl : String → Bool) (s : ServerState)
    (originalUrl customShortcode : Option String) (validityPeriod : Option Int)
    (clientIP : String) (now : Int) (newId : Nat) (ds : List Draw6)
    (r : URLRecord)
    (h : (createShortUrl validUrl s originalUrl customShortcode validityPeriod
        clientIP now newId ds).2 = .ok r) :
    ((validityPeriod = none ∨ validityPeriod = some 0) →
      r.validityPeriod = 30) ∧
    (∀ v, validityPeriod = some v → v ≠ 0 → r.validityPeriod = v) ∧
    r.createdAt = now ∧
    r.expiryDate = r.createdAt + r.validityPeriod * 60 * 1000 := by
  rcases createShortUrl_cases validUrl s originalUrl customShortcode
      validityPeriod clientIP now newId ds with ⟨e, heq⟩ |
      ⟨r0, heq, _, _, _, hca, hvp, hexp⟩
  · rw [heq] at h; simp at h
  · rw [heq] at h
    simp only [Except.ok.injEq] at h
    subst h
    refine ⟨?_, ?_, hca, by rw [hexp, hca]⟩
    · rintro (rfl | rfl) <;> simpa using hvp
    · rintro v rfl hv
      rw [hvp]
      simp [hv]

theorem C3_witness :
    (createShortUrl (fun _ => true) emptyState (some "https://example.com")
      none (some 5) "ip" 0 1 [⟨0, 1, 2, 3, 4, 5⟩]).2 = .ok sampleCreated ∧
    sampleCreated.validityPeriod = 5 ∧ sampleCreated.createdAt = 0 ∧
    sampleCreated.expiryDate =
      sampleCreated.createdAt + sampleCreated.validityPeriod * 60 * 1000 := by
  have hc := C3_validity_defaulting (fun _ => true) emptyState
    (some "https://example.com") none (some 5) "ip" 0 1 [⟨0, 1, 2, 3, 4, 5⟩]
    sampleCreated (by rfl)
  exact ⟨rfl, hc.2.1 5 rfl (by decide), hc.2.2.1, hc.2.2.2⟩

/-! ### Claims about the redirect handler -/

/-- Claim C4: the redirect handler answers not-found when the registry lacks
the code; answers expired, carrying the expiry instant of the record, when
the record exists and the current instant is past its expiry; and otherwise
appends the click to the analytics entry, increments its counter, and
returns the original URL of the record. -/
theorem C4_resolve_cases_spec (locate : String → String) (s : ServerState)
    (shortCode clientIP userAgent : String) (now : Int) :
    (lookupKey shortCode s.urlDatabase = none →
      resolveAndRecordClick locate s shortCode clientIP userAgent now =
        (s, .error .notFound)) ∧
    (∀ r, lookupKey shortCode s.urlDatabase = some r → isExpired r now = true →
      resolveAndRecordClick locate s shortCode clientIP userAgent now =
        (s, .error (.expired r.expiryDate))) ∧
    (∀ r a, lookupKey shortCode s.urlDatabase = some r →
      isExpired r now = false →
      lookupKey shortCode s.clickAnalytics = some a →
      resolveAndRecordClick locate s shortCode clientIP userAgent now =
        ({ s with
            clickAnalytics := mapSet s.clickAnalytics shortCode
              ⟨a.totalClicks + 1,
               a.clicks ++ [⟨now, clientIP, userAgent, locate clientIP⟩]⟩ },
         .ok r.originalUrl)) := by
  refine ⟨?_, ?_, ?_⟩
  · intro h
    simp [resolveAndRecordClick, h]
  · intro r h hexp
    simp [resolveAndRecordClick, h, hexp]
  · intro r a h hexp han
    simp [resolveAndRecordClick, h, hexp, han]

theorem C4_witness :
    resolveAndRecordClick (fun _ => "loc") oneState "zzz" "ip2" "ua" 0 =
      (oneState, .error .notFound) ∧
    resolveAndRecordClick (fun _ => "loc") oneState "abc" "ip2" "ua" 300001 =
      (oneState, .error (.expired 300000)) ∧
    resolveAndRecordClick (fun _ => "loc") oneState "abc" "ip2" "ua" 1000 =
      ({ oneState with
          clickAnalytics := mapSet oneState.clickAnalytics "abc"
            ⟨1, [⟨1000, "ip2", "ua", "loc"⟩]⟩ },
       .ok "https://example.com") := by
  refine ⟨?_, ?_, ?_⟩
  · exact (C4_resolve_cases_spec (fun _ => "loc") oneState "zzz" "ip2"
      "ua" 0).1 (by rfl)
  · exact (C4_resolve_cases_spec (fun _ => "loc") oneState "abc" "ip2"
      "ua" 300001).2.1 sampleRecord (by rfl) (by decide)
  · exact (C4_resolve_cases_spec (fun _ => "loc") oneState "abc" "ip2"
      "ua" 1000).2.2 sampleRecord entry0 (by rfl) (by decide) (by rfl)

/-- Claim C10: whenever the redirect handler answers an error (unknown code,
expired code, or the defensive internal-error path), both maps are left
completely unchanged: no click is appended and no counter incremented. -/
theorem C10_resolve_error_atomic (locate : String → String) (s : ServerState)
    (shortCode clientIP userAgent : String) (now : Int) (e : ResolveError)
    (h : (resolveAndRecordClick locate s shortCode clientIP userAgent now).2 =
      .error e) :
    (resolveAndRecordClick locate s shortCode clientIP
        userAgent now).1.urlDatabase = s.urlDatabase ∧
    (resolveAndRecordClick locate s shortCode clientIP
        userAgent now).1.clickAnalytics = s.clickAnalytics := by
  rcases resolve_cases locate s shortCode clientIP userAgent now with
    ⟨e0, heq⟩ | ⟨r, a, _, _, _, heq⟩
  · rw [heq]
    exact ⟨rfl, rfl⟩
  · rw [heq] at h
    simp at h

theorem C10_witness :
    (resolveAndRecordClick (fun _ => "loc") oneState "abc" "ip2" "ua"
        300001).1.urlDatabase = oneState.urlDatabase ∧
    (resolveAndRecordClick (fun _ => "loc") oneState "abc" "ip2" "ua"
        300001).1.clickAnalytics = oneState.clickAnalytics :=
  C10_resolve_error_atomic (fun _ => "loc") oneState "abc" "ip2" "ua" 300001
    (.expired 300000) (by rfl)

/-! ### The quota invariant -/

theorem countActive_append_eq (db : List (String × URLRecord))
    (an : List (String × AnalyticsEntry)) (k : String) (r : URLRecord)
    (c : String) (now : Int) :
    countActiveForCreator ⟨db ++ [(k, r)], an⟩ c now =
      countActiveForCreator ⟨db, an⟩ c now +
        (if r.createdBy == c && decide (now ≤ r.expiryDate) then 1 else 0) := by
  simp only [countActiveForCreator, List.map_append, List.map_cons,
    List.map_nil, List.filter_append, List.length_append]
  cases hp : (r.createdBy == c && decide (now ≤ r.expiryDate)) <;>
    simp [List.filter_cons, hp]

theorem quota_step (s : ServerState) (t : Int) (op : Op)
    (hinv : ∀ c, countActiveForCreator s c t ≤ 5) (c : String) :
    countActiveForCreator (applyOp s t op) c t ≤ 5 := by
  cases op with
  | create validUrl o cs vp ip id ds =>
    rcases createShortUrl_cases validUrl s o cs vp ip t id ds with
      ⟨e, heq⟩ | ⟨r, heq, hq, hfresh, hby, _, _, _⟩
    · simp only [applyOp, heq]
      exact hinv c
    · simp only [applyOp, heq]
      rw [mapSet_fresh s.urlDatabase r.shortCode r hfresh]
      rw [countActive_append_eq]
      have hsame : countActiveForCreator
          ⟨s.urlDatabase, mapSet s.clickAnalytics r.shortCode entry0⟩ c t =
          countActiveForCreator s c t := rfl
      rw [hsame]
      by_cases hc : (r.createdBy == c && decide (t ≤ r.expiryDate)) = true
      · rw [if_pos hc]
        have hcip : c = ip := by
          simp only [Bool.and_eq_true, beq_iff_eq] at hc
          rw [← hc.1, hby]
        subst hcip
        omega
      · rw [if_neg hc]
        have := hinv c
        omega
  | resolve locate code0 ip ua =>
    rcases resolve_cases locate s code0 ip ua t with
      ⟨e, heq⟩ | ⟨r, a, _, _, _, heq⟩
    · simp only [applyOp, heq]
      exact hinv c
    · simp only [applyOp, heq]
      exact hinv c

theorem quota_run (evs : List (Int × Op)) :
    ∀ (s : ServerState) (t : Int),
      (∀ c, countActiveForCreator s c t ≤ 5) → monoFrom t evs →
      ∀ c, countActiveForCreator (runTrace s evs) c (endTime t evs) ≤ 5 := by
  induction evs with
  | nil =>
    intro s t h _ c
    exact h c
  | cons e evs ih =>
    obtain ⟨t0, op⟩ := e
    intro s t h hm c
    obtain ⟨ht, hm'⟩ := hm
    simp only [runTrace, endTime]
    refine ih (applyOp s t0 op) t0 ?_ hm' c
    exact quota_step s t0 op
      (fun c2 => le_trans (countActive_mono s c2 ht) (h c2))

/-- Claim C2: with the URL guards passed, create fails with the quota error
as soon as the creator already has five records active at the request
instant; consequently, along every trace of requests served at nondecreasing
instants starting from the empty state, no creator ever has more than five
records simultaneously active, and expired records do not count. -/
theorem C2_quota_enforced :
    (∀ (validUrl : String → Bool) (s : ServerState)
       (originalUrl customShortcode : Option String)
       (validityPeriod : Option Int) (clientIP : String) (now : Int)
       (newId : Nat) (ds : List Draw6),
       originalUrl.getD "" ≠ "" → validUrl (originalUrl.getD "") = true →
       5 ≤ countActiveForCreator s clientIP now →
       createShortUrl validUrl s originalUrl customShortcode validityPeriod
         clientIP now newId ds = (s, .error .quotaExceeded)) ∧
    (∀ (evs : List (Int × Op)) (t now : Int) (c : String),
       monoFrom t evs → endTime t evs ≤ now →
       countActiveForCreator (runTrace emptyState evs) c now ≤ 5) := by
  constructor
  · intro validUrl s o cs vp ip now id ds h1 h2 h3
    unfold createShortUrl
    rw [if_neg h1, if_neg (by simp [h2]), if_pos h3]
  · intro evs t now c hm hend
    have h0 : ∀ c2, countActiveForCreator emptyState c2 t ≤ 5 := by
      intro c2
      simp [countActiveForCreator, emptyState]
    exact le_trans (countActive_mono _ c hend) (quota_run evs emptyState t h0 hm c)

theorem C2_witness :
    createShortUrl (fun _ => true) fiveState (some "https://example.com")
      none none "ip" 0 9 [] = (fiveState, .error .quotaExceeded) ∧
    countActiveForCreator
      (runTrace emptyState
        [((0 : Int), Op.resolve (fun _ => "loc") "zzz" "ip" "ua")])
      "ip" 0 ≤ 5 := by
  constructor
  · exact C2_quota_enforced.1 (fun _ => true) fiveState
      (some "https://example.com") none none "ip" 0 9 [] (by decide) rfl
      (by decide)
  · exact C2_quota_enforced.2
      [((0 : Int), Op.resolve (fun _ => "loc") "zzz" "ip" "ua")]
      0 0 "ip" (by simp [monoFrom]) (by simp [endTime])

/-! ### The analytics-consistency invariant -/

theorem analytics_step (s : ServerState) (t : Int) (op : Op)
    (h : analyticsConsistent s) : analyticsConsistent (applyOp s t op) := by
  cases op with
  | create validUrl o cs vp ip id ds =>
    rcases createShortUrl_cases validUrl s o cs vp ip t id ds with
      ⟨e, heq⟩ | ⟨r, heq, _, _, _, _, _, _⟩
    · simp only [applyOp, heq]
      exact h
    · simp only [applyOp, heq]
      intro code a hl
      simp only [lookupKey_mapSet] at hl
      by_cases hc : r.shortCode = code
      · rw [if_pos hc] at hl
        cases hl
        rfl
      · rw [if_neg hc] at hl
        exact h code a hl
  | resolve locate code0 ip ua =>
    rcases resolve_cases locate s code0 ip ua t with
      ⟨e, heq⟩ | ⟨r, a0, _, _, han, heq⟩
    · simp only [applyOp, heq]
      exact h
    · simp only [applyOp, heq]
      intro code a hl
      simp only [lookupKey_mapSet] at hl
      by_cases hc : code0 = code
      · rw [if_pos hc] at hl
        cases hl
        have hc0 := h code0 a0 han
        simp [hc0]
      · rw [if_neg hc] at hl
        exact h code a hl

theorem analytics_run : ∀ (evs : List (Int × Op)) (s : ServerState),
    analyticsConsistent s → analyticsConsistent (runTrace s evs) := by
  intro evs
  induction evs with
  | nil => intro s h; exact h
  | cons e evs ih =>
    obtain ⟨t, op⟩ := e
    intro s h
    exact ih (applyOp s t op) (analytics_step s t op h)

theorem analyticsConsistent_empty : analyticsConsistent emptyState := by
  intro code a h
  simp [emptyState, lookupKey] at h

/-- Claim C5: in every reachable state, the counter of every analytics entry
equals the length of its click sequence; this holds at start, entries are
created with counter 0 and an empty sequence, and every operation preserves
it, a successful redirect appending exactly one click and incrementing the
counter by exactly one. -/
theorem C5_analytics_consistency :
    analyticsConsistent emptyState ∧
    (∀ (s : ServerState) (now : Int) (op : Op), analyticsConsistent s →
      analyticsConsistent (applyOp s now op)) ∧
    (∀ evs : List (Int × Op), analyticsConsistent (runTrace emptyState evs)) ∧
    (∀ (locate : String → String) (s : ServerState)
       (shortCode clientIP userAgent : String) (now : Int)
       (a : AnalyticsEntry) (s2 : ServerState) (u : String),
       lookupKey shortCode s.clickAnalytics = some a →
       resolveAndRecordClick locate s shortCode clientIP userAgent now =
         (s2, .ok u) →
       lookupKey shortCode s2.clickAnalytics =
         some ⟨a.totalClicks + 1,
               a.clicks ++ [⟨now, clientIP, userAgent, locate clientIP⟩]⟩) := by
  refine ⟨analyticsConsistent_empty, analytics_step, ?_, ?_⟩
  · intro evs
    exact analytics_run evs emptyState analyticsConsistent_empty
  · intro locate s shortCode clientIP userAgent now a s2 u han hres
    rcases resolve_cases locate s shortCode clientIP userAgent now with
      ⟨e, heq⟩ | ⟨r, a0, _, _, han0, heq⟩
    · rw [heq] at hres
      simp at hres
    · rw [heq] at hres
      obtain ⟨hs2, _⟩ := Prod.mk.injEq .. ▸ hres
      rw [han0] at han
      cases han
      rw [← hs2]
      simp [lookupKey_mapSet]

theorem C5_witness :
    analyticsConsistent emptyState ∧
    analyticsConsistent (applyOp oneState 1000
      (Op.resolve (fun _ => "loc") "abc" "ip2" "ua")) ∧
    analyticsConsistent (runTrace emptyState
      [((0 : Int), Op.create (fun _ => true) (some "https://example.com") none
        (some 5) "ip" 1 [⟨0, 1, 2, 3, 4, 5⟩])]) ∧
    lookupKey "abc"
      ({ oneState with
          clickAnalytics := mapSet oneState.clickAnalytics "abc"
            ⟨1, [⟨1000, "ip2", "ua", "loc"⟩]⟩ } : ServerState).clickAnalytics =
      some ⟨entry0.totalClicks + 1,
            entry0.clicks ++ [⟨1000, "ip2", "ua", "loc"⟩]⟩ := by
  have hone : analyticsConsistent oneState := by
    intro code a h
    simp only [oneState, lookupKey] at h
    by_cases hc : ("abc" : String) = code
    · rw [if_pos hc] at h
      cases h
      rfl
    · rw [if_neg hc] at h
      cases h
  refine ⟨C5_analytics_consistency.1,
    C5_analytics_consistency.2.1 oneState 1000 _ hone,
    C5_analytics_consistency.2.2.1 _,
    C5_analytics_consistency.2.2.2 (fun _ => "loc") oneState "abc" "ip2" "ua"
      1000 entry0 _ "https://example.com" (by rfl) (by rfl)⟩

/-! ### The key-alignment invariant -/

theorem keys_step (s : ServerState) (t : Int) (op : Op)
    (h : keysAligned s) : keysAligned (applyOp s t op) := by
  cases op with
  | create validUrl o cs vp ip id ds =>
    rcases createShortUrl_cases validUrl s o cs vp ip t id ds with
      ⟨e, heq⟩ | ⟨r, heq, _, hfresh, _, _, _, _⟩
    · simp only [applyOp, heq]
      exact h
    · simp only [applyOp, heq]
      unfold keysAligned at h ⊢
      have hanfresh : lookupKey r.shortCode s.clickAnalytics = none := by
        cases hl : lookupKey r.shortCode s.clickAnalytics with
        | none => rfl
        | some v =>
          have hmem : r.shortCode ∈ keysOf s.clickAnalytics :=
            (lookupKey_isSome_iff_mem_keys _ _).mp (by simp [hl])
          rw [← h] at hmem
          have hsome : (lookupKey r.shortCode s.urlDatabase).isSome = true :=
            (lookupKey_isSome_iff_mem_keys _ _).mpr hmem
          rw [hfresh] at hsome
          simp at hsome
      show keysOf (mapSet s.urlDatabase r.shortCode r) =
        keysOf (mapSet s.clickAnalytics r.shortCode entry0)
      rw [mapSet_fresh _ _ _ hfresh, mapSet_fresh _ _ _ hanfresh]
      simp only [keysOf, List.map_append]
      rw [show (s.urlDatabase.map Prod.fst) = keysOf s.urlDatabase from rfl, h]
      rfl
  | resolve locate code0 ip ua =>
    rcases resolve_cases locate s code0 ip ua t with
      ⟨e, heq⟩ | ⟨r, a, _, _, han, heq⟩
    · simp only [applyOp, heq]
      exact h
    · simp only [applyOp, heq]
      unfold keysAligned at h ⊢
      show keysOf s.urlDatabase = keysOf (mapSet s.clickAnalytics code0 _)
      rw [keysOf_mapSet_existing _ _ _ (by simp [han])]
      exact h

theorem keys_run : ∀ (evs : List (Int × Op)) (s : ServerState),
    keysAligned s → keysAligned (runTrace s evs) := by
  intro evs
  induction evs with
  | nil => intro s h; exact h
  | cons e evs ih =>
    obtain ⟨t, op⟩ := e
    intro s h
    exact ih (applyOp s t op) (keys_step s t op h)

/-- Claim C8: the registry map and the analytics map always hold entries for
exactly the same short codes: this holds at start, every create inserts both
entries together under the same fresh code, no operation disturbs it, and a
code has a registry entry exactly when it has an analytics entry. -/
theorem C8_keys_aligned :
    keysAligned emptyState ∧
    (∀ (s : ServerState) (now : Int) (op : Op), keysAligned s →
      keysAligned (applyOp s now op)) ∧
    (∀ evs : List (Int × Op), keysAligned (runTrace emptyState evs)) ∧
    (∀ s : ServerState, keysAligned s → ∀ code,
      ((lookupKey code s.urlDatabase).isSome = true ↔
        (lookupKey code s.clickAnalytics).isSome = true)) := by
  refine ⟨rfl, keys_step, ?_, ?_⟩
  · intro evs
    exact keys_run evs emptyState rfl
  · intro s h code
    rw [lookupKey_isSome_iff_mem_keys, lookupKey_isSome_iff_mem_keys, h]

theorem C8_witness :
    keysAligned emptyState ∧
    keysAligned (applyOp oneState 1000
      (Op.resolve (fun _ => "loc") "abc" "ip2" "ua")) ∧
    keysAligned (runTrace emptyState
      [((0 : Int), Op.create (fun _ => true) (some "https://example.com") none
        (some 5) "ip" 1 [⟨0, 1, 2, 3, 4, 5⟩])]) ∧
    ((lookupKey "abc" oneState.urlDatabase).isSome = true ↔
      (lookupKey "abc" oneState.clickAnalytics).isSome = true) :=
  ⟨C8_keys_aligned.1,
   C8_keys_aligned.2.1 oneState 1000 _ rfl,
   C8_keys_aligned.2.2.1 _,
   C8_keys_aligned.2.2.2 oneState rfl "abc"⟩

/-! ### Expiry monotonicity and record immutability -/

theorem record_persists_step (s : ServerState) (t : Int) (op : Op)
    (code : String) (r : URLRecord)
    (h : lookupKey code s.urlDatabase = some r) :
    lookupKey code (applyOp s t op).urlDatabase = some r := by
  cases op with
  | create validUrl o cs vp ip id ds =>
    rcases createShortUrl_cases validUrl s o cs vp ip t id ds with
      ⟨e, heq⟩ | ⟨r0, heq, _, hfresh, _, _, _, _⟩
    · simp only [applyOp, heq]
      exact h
    · simp only [applyOp, heq]
      show lookupKey code (mapSet s.urlDatabase r0.shortCode r0) = some r
      rw [lookupKey_mapSet]
      have hne : r0.shortCode ≠ code := by
        intro hcontra
        rw [hcontra] at hfresh
        rw [hfresh] at h
        cases h
      rw [if_neg hne]
      exact h
  | resolve locate code0 ip ua =>
    rcases resolve_cases locate s code0 ip ua t with
      ⟨e, heq⟩ | ⟨r0, a, _, _, _, heq⟩
    · simp only [applyOp, heq]
      exact h
    · simp only [applyOp, heq]
      exact h

/-- Claim C9: expiry is monotonic in time: once a record is expired at some
instant it is expired at every later instant; and records are immutable
after creation: the record stored under a code, its expiry instant included,
is never changed by any later sequence of operations. -/
theorem C9_expiry_monotone :
    (∀ (r : URLRecord) (t t2 : Int), isExpired r t = true → t ≤ t2 →
      isExpired r t2 = true) ∧
    (∀ (s : ServerState) (evs : List (Int × Op)) (code : String)
       (r : URLRecord),
       lookupKey code s.urlDatabase = some r →
       lookupKey code (runTrace s evs).urlDatabase = some r) := by
  constructor
  · intro r t t2 h hle
    simp only [isExpired, decide_eq_true_eq] at h ⊢
    omega
  · intro s evs
    induction evs generalizing s with
    | nil => intro code r h; exact h
    | cons e evs ih =>
      obtain ⟨t, op⟩ := e
      intro code r h
      exact ih (applyOp s t op) code r (record_persists_step s t op code r h)

theorem C9_witness :
    isExpired sampleRecord 300002 = true ∧
    lookupKey "abc"
      (runTrace oneState
        [((0 : Int), Op.resolve (fun _ => "loc") "abc" "ip2" "ua")]).urlDatabase =
      some sampleRecord :=
  ⟨C9_expiry_monotone.1 sampleRecord 300001 300002 (by decide) (by decide),
   C9_expiry_monotone.2 oneState
     [((0 : Int), Op.resolve (fun _ => "loc") "abc" "ip2" "ua")]
     "abc" sampleRecord (by rfl)⟩

end UrlShortener
